import Mathlib

/-!
Verification of the application-record lifecycle module
(`src/userbase-server/app.js`) against its specification.

The module manages "application" records owned by admins in a DynamoDB-style
store: a primary apps table keyed by (admin-id, app-name) with a secondary
index on app-id, a deleted-apps (tombstone) table keyed by app-id, and a users
table whose records reference an app by app-id through a secondary index.

The store is embedded as an explicit state (`DB`); each HTTP handler becomes a
pure function from its inputs and the state to a response and the next state.
DynamoDB conditional writes become checks on the state; the two-item
`transactWrite` of `permanentDeleteApp` becomes a single all-or-nothing state
update guarded by the conjunction of the two condition expressions.  Paginated
queries are modelled by an explicit page cursor: a query from position `pos`
scans up to `pageSize` raw items (the 1 MB page cap; additionally capped by the
request `Limit` when one is set) and returns a continuation key iff raw items
remain.  Current time and the generated uuid are passed as parameters, since
both come from external collaborators.
-/

/-- An item of the apps table.  `deleted` models presence/absence of the
`deleted` attribute (set by soft delete). -/
structure AppRecord where
  adminId : String
  appName : String
  appId : String
  creationDate : String
  deleted : Option String
deriving DecidableEq

/-- An item of the deleted-apps (tombstone) table, keyed by `appId`. -/
structure Tombstone where
  appId : String
  adminId : String
  appName : String
deriving DecidableEq

/-- An item of the users table, as far as this module inspects it: its app-id
key in the secondary index and the two attributes of the count filter
expression (`deleted`, `seed-not-saved-yet`), each modelled as attribute
presence. -/
structure UserRecord where
  username : String
  appId : String
  deleted : Option String
  seedNotSavedYet : Option String
deriving DecidableEq

/-- The subscription object resolved by the middleware into `res.locals`. -/
structure Subscription where
  status : String
  cancel_at_period_end : Bool
deriving DecidableEq

/-- The whole store state: the three tables touched by this module. -/
structure DB where
  apps : List AppRecord
  deletedApps : List Tombstone
  users : List UserRecord
deriving DecidableEq

/-- An error thrown by `createApp`: `{ status, data }` in the source. -/
structure ApiErr where
  status : Nat
  data : String
deriving DecidableEq

/-- A response body.  Listing handlers send arrays whose elements are either a
single record (first page) or a whole nested page array (continuation pages) —
the element type records that distinction faithfully. -/
inductive HBody where
  | text (s : String)
  | app (a : AppRecord)
  | listing (l : List (AppRecord ⊕ List AppRecord))
  | usersPayload (users : List (UserRecord ⊕ List UserRecord)) (appId : String)
  | empty
deriving DecidableEq

/-- An HTTP response: status code plus body (`res.end()` is `empty`). -/
structure HResult where
  status : Nat
  body : HBody
deriving DecidableEq

/-- The subscription gate shared by the three mutating handlers:
`!subscription || subscription.cancel_at_period_end || subscription.status !== 'active'`. -/
def subInvalid : Option Subscription → Bool
  | none => true
  | some s => s.cancel_at_period_end || s.status != "active"

/-- `getApp(adminId, appName)`: point `get` on the apps table at the composite
key (admin-id, app-name). -/
def getApp (db : DB) (adminId appName : String) : Option AppRecord :=
  db.apps.find? (fun a => a.adminId == adminId && a.appName == appName)

/-- The JavaScript `String.prototype.trim` builtin called by `createApp`,
embedded executably: strip whitespace from both ends. -/
def jsTrim (s : String) : String :=
  ⟨((s.data.dropWhile Char.isWhitespace).reverse.dropWhile Char.isWhitespace).reverse⟩

/-- `createApp(appName, adminId, appId)`: validation, then a conditional put
with `attribute_not_exists(admin-id)` at key (admin-id, trimmed name) — which
fails exactly when a record already sits at that key.  `now` is the creation
timestamp, `appId` the (externally generated) uuid. -/
def createApp (appName adminId appId now : String) (db : DB) :
    Except ApiErr (AppRecord × DB) :=
  if appName = "" ∨ adminId = "" then
    .error ⟨400, "Missing required items"⟩
  else if jsTrim appName = "" then
    .error ⟨400, "App name cannot be blank"⟩
  else
    match getApp db adminId (jsTrim appName) with
    | some _ => .error ⟨409, "App already exists"⟩
    | none =>
      .ok (⟨adminId, jsTrim appName, appId, now, none⟩,
           { db with apps := db.apps ++ [⟨adminId, jsTrim appName, appId, now, none⟩] })

/-- `createAppController`: subscription gate, then `createApp`, sending the
created record on success and `(e.status, e.data)` on failure. -/
def createAppController (sub : Option Subscription) (appName adminId appId now : String)
    (db : DB) : HResult × DB :=
  if subInvalid sub then
    (⟨402, .text "Pay subscription fee to create an app."⟩, db)
  else
    match createApp appName adminId appId now db with
    | .ok (app, db2) => (⟨200, .app app⟩, db2)
    | .error e => (⟨e.status, .text e.data⟩, db)

/-- One raw page of a (limit-less) paginated query over `rows`, starting at
cursor `pos`: up to `pageSize` raw items, plus a continuation key iff raw
items remain beyond them. -/
def queryPage (rows : List α) (pageSize pos : Nat) : List α × Option Nat :=
  ((rows.drop pos).take (min pageSize (rows.length - pos)),
   if pos + min pageSize (rows.length - pos) < rows.length then
     some (pos + min pageSize (rows.length - pos))
   else none)

/-- The continuation loop shared by `listApps` and `listAppUsers`:
`while (resp.LastEvaluatedKey) { resp = query(...); acc.push(resp.Items) }`.
Note the source pushes each continuation page array as a SINGLE element
(`push(items)`, not `push(...items)`), so continuation pages land nested. -/
def drainLoop (rows : List α) (pageSize : Nat) :
    Nat → List (α ⊕ List α) → Option Nat → List (α ⊕ List α)
  | _, acc, none => acc
  | 0, acc, some _ => acc
  | fuel + 1, acc, some pos =>
    drainLoop rows pageSize fuel (acc ++ [Sum.inr (queryPage rows pageSize pos).1])
      (queryPage rows pageSize pos).2

/-- Full drain: first page's items as the base array, each further page pushed
as one nested element. -/
def drainPages (rows : List α) (pageSize : Nat) : List (α ⊕ List α) :=
  drainLoop rows pageSize rows.length ((queryPage rows pageSize 0).1.map Sum.inl)
    (queryPage rows pageSize 0).2

/-- `listApps`: query the apps table by admin-id and send the accumulated
array with status 200.  `pageSize` is the store's raw page cap. -/
def listApps (adminId : String) (pageSize : Nat) (db : DB) : HResult :=
  ⟨200, .listing (drainPages (db.apps.filter (fun a => a.adminId == adminId)) pageSize)⟩

/-- Severity of a log line (`logger.error` / `logger.fatal`). -/
inductive Severity where
  | error
  | fatal
deriving DecidableEq

/-- `getAppByAppId(appId)`: query the app-id secondary index; zero items gives
`null`, more than one throws after a `logger.fatal`, one returns it.  The
second component collects the log lines emitted. -/
def getAppByAppId (db : DB) (appId : String) :
    Except String (Option AppRecord) × List (Severity × String) :=
  if (db.apps.filter (fun a => a.appId == appId)).length = 0 then
    (.ok none, [])
  else if (db.apps.filter (fun a => a.appId == appId)).length > 1 then
    (.error ("Too many apps found with app id " ++ appId),
     [(Severity.fatal, "Too many apps found with app id " ++ appId)])
  else
    (.ok (db.apps.filter (fun a => a.appId == appId)).head?, [])

/-- The `UpdateExpression: SET deleted = :deleted` of `deleteApp`, applied at
the composite key. -/
def setDeleted (db : DB) (adminId appName now : String) : DB :=
  { db with
    apps := db.apps.map (fun a =>
      if a.adminId == adminId && a.appName == appName then
        { a with deleted := some now }
      else a) }

/-- `deleteApp` (soft delete): subscription gate, missing-items check, then a
conditional update `attribute_exists(admin-id) and attribute_not_exists(deleted)`
setting `deleted` to the current time; condition failure maps to 404. -/
def deleteApp (sub : Option Subscription) (appName adminId now : String) (db : DB) :
    HResult × DB :=
  if subInvalid sub then
    (⟨402, .text "Pay subscription fee to delete an app."⟩, db)
  else if appName = "" ∨ adminId = "" then
    (⟨400, .text "Missing required items"⟩, db)
  else
    match getApp db adminId appName with
    | some app =>
      if app.deleted.isNone then (⟨200, .empty⟩, setDeleted db adminId appName now)
      else (⟨404, .text "App not found"⟩, db)
    | none => (⟨404, .text "App not found"⟩, db)

/-- Conjunction of the two condition expressions of the permanent-delete
transaction: `attribute_exists(deleted) and app-id = :appId` on the primary
record (false when the record is absent), and `attribute_not_exists(app-id)`
on the tombstone table. -/
def permDeleteCond (db : DB) (adminId appName appId : String) : Bool :=
  (match getApp db adminId appName with
   | some app => app.deleted.isSome && app.appId == appId
   | none => false) &&
  (db.deletedApps.find? (fun t => t.appId == appId)).isNone

/-- `permanentDeleteApp`: subscription gate, missing-items check, then a
two-item `transactWrite` (delete the primary record, put the tombstone), each
item conditioned as in `permDeleteCond`; all-or-nothing, abort maps to 409. -/
def permanentDeleteApp (sub : Option Subscription) (appName appId adminId : String)
    (db : DB) : HResult × DB :=
  if subInvalid sub then
    (⟨402, .text "Pay subscription fee to permanently delete an app."⟩, db)
  else if appName = "" ∨ appId = "" ∨ adminId = "" then
    (⟨400, .text "Missing required items"⟩, db)
  else if permDeleteCond db adminId appName appId then
    (⟨200, .empty⟩,
     { db with
       apps := db.apps.filter (fun a => !(a.adminId == adminId && a.appName == appName)),
       deletedApps := db.deletedApps ++ [⟨appId, adminId, appName⟩] })
  else
    (⟨409, .text "App already permanently deleted"⟩, db)

/-- `listAppUsers`: resolve the app by (admin-id, app-name); 404 when absent
or soft-deleted; otherwise drain the users query on the app-id index (same
nested-push loop as `listApps`) and send it with the app id. -/
def listAppUsers (appName adminId : String) (pageSize : Nat) (db : DB) : HResult :=
  match getApp db adminId appName with
  | none => ⟨404, .text "App not found"⟩
  | some app =>
    if app.deleted.isSome then ⟨404, .text "App not found"⟩
    else
      ⟨200, .usersPayload
        (drainPages (db.users.filter (fun u => u.appId == app.appId)) pageSize)
        app.appId⟩

/-- The `FilterExpression` of the user count:
`attribute_not_exists(deleted) and attribute_not_exists(seed-not-saved-yet)`. -/
def matchesFilter (u : UserRecord) : Bool :=
  u.deleted.isNone && u.seedNotSavedYet.isNone

/-- JavaScript truthiness of the optional `limit` argument: absent or `0` is
falsy. -/
def truthy : Option Nat → Bool
  | none => false
  | some l => l != 0

/-- `if (limit) params.Limit = limit`: the query `Limit` actually set. -/
def limitParam (limit : Option Nat) : Option Nat :=
  if truthy limit then limit else none

/-- The loop guard `!limit || count < limit`. -/
def keepGoing (limit : Option Nat) (count : Nat) : Bool :=
  !truthy limit || decide (count < limit.getD 0)

/-- The accumulation step `limit ? Math.min(limit, count + resp.Count) : count + resp.Count`. -/
def accumulate (limit : Option Nat) (count c : Nat) : Nat :=
  if truthy limit then min (limit.getD 0) (count + c) else count + c

/-- Raw items scanned per count-query call: the request `Limit` (when set)
and the store's raw page cap both bound the scan. -/
def capOf (lim : Option Nat) (ps : Nat) : Nat :=
  match lim with
  | some l => min l ps
  | none => ps

/-- One call of the `Select: 'COUNT'` query from cursor `pos`: scans up to
`capOf lim ps` raw index items, returns how many of them pass the filter
expression, plus a continuation key iff raw items remain. -/
def queryCountPage (rows : List UserRecord) (lim : Option Nat) (ps pos : Nat) :
    Nat × Option Nat :=
  (((rows.drop pos).take (min (capOf lim ps) (rows.length - pos))).countP
     (fun u => matchesFilter u),
   if pos + min (capOf lim ps) (rows.length - pos) < rows.length then
     some (pos + min (capOf lim ps) (rows.length - pos))
   else none)

/-- The continuation loop of `countNonDeletedAppUsers`:
`while ((!limit || count < limit) && resp.LastEvaluatedKey) { ... }`. -/
def countLoop (rows : List UserRecord) (limit : Option Nat) (ps : Nat) :
    Nat → Nat → Option Nat → Nat
  | _, count, none => count
  | 0, count, some _ => count
  | fuel + 1, count, some pos =>
    if keepGoing limit count then
      countLoop rows limit ps fuel
        (accumulate limit count (queryCountPage rows (limitParam limit) ps pos).1)
        (queryCountPage rows (limitParam limit) ps pos).2
    else count

/-- First query plus continuation loop, over the key-matched index rows. -/
def countFrom (rows : List UserRecord) (limit : Option Nat) (ps : Nat) : Nat :=
  countLoop rows limit ps rows.length
    (queryCountPage rows (limitParam limit) ps 0).1
    (queryCountPage rows (limitParam limit) ps 0).2

/-- `countNonDeletedAppUsers(appId, limit)`: count users of the app passing
the filter, following continuations until the limit is met or the index
partition is exhausted.  `ps` is the store's raw page cap. -/
def countNonDeletedAppUsers (db : DB) (applicationId : String) (limit : Option Nat)
    (ps : Nat) : Nat :=
  countFrom (db.users.filter (fun u => u.appId == applicationId)) limit ps

/-! ### Concrete store fixtures used by counterexamples and witnesses -/

/-- An active (paid) subscription. -/
def subActive : Subscription := ⟨"active", false⟩

/-- An application record that is still active. -/
def appActive : AppRecord := ⟨"ad1", "nm1", "id1", "t0", none⟩

/-- An application record that has been soft-deleted. -/
def appSoftDeleted : AppRecord := ⟨"ad1", "nm1", "id1", "t0", some "t1"⟩

/-- A store holding one active app. -/
def dbOne : DB := ⟨[appActive], [], []⟩

/-- A store holding one soft-deleted app and no tombstone. -/
def dbPerm : DB := ⟨[appSoftDeleted], [], []⟩

/-- Two active apps of the same admin (two pages at page size 1). -/
def appA : AppRecord := ⟨"admin1", "app1", "idA", "t0", none⟩

/-- Second app of the same admin. -/
def appB : AppRecord := ⟨"admin1", "app2", "idB", "t0", none⟩

/-- Store for the two-page listing scenario. -/
def dbTwoApps : DB := ⟨[appA, appB], [], []⟩

/-- Two records sharing one app id: simulated index corruption. -/
def dbCorrupt : DB :=
  ⟨[⟨"a", "n1", "dup", "t0", none⟩, ⟨"a", "n2", "dup", "t0", none⟩], [], []⟩

/-- A user that passes the count filter. -/
def activeUser : UserRecord := ⟨"u", "appX", none, none⟩

/-- A user excluded by the count filter. -/
def deletedUser : UserRecord := ⟨"v", "appX", some "t", none⟩

/-- Ten users of one app, matching and filtered-out alternating, so that at
page size 2 every raw page contributes exactly one matching user. -/
def dbUsersPages : DB :=
  ⟨[], [],
   [activeUser, deletedUser, activeUser, deletedUser, activeUser,
    deletedUser, activeUser, deletedUser, activeUser, deletedUser]⟩

/-! ### Helper lemmas -/

/-- After filtering out everything satisfying `p`, `find? p` finds nothing. -/
theorem find?_filter_not (p : α → Bool) (l : List α) :
    (l.filter (fun a => !p a)).find? p = none := by
  rw [List.find?_eq_none]
  intro x hx
  have hmem := List.mem_filter.mp hx
  simp only [Bool.not_eq_true'] at hmem
  simp [hmem.2]

/-- Marking the record at a key deleted commutes with looking the key up. -/
theorem find?_setDeleted (l : List AppRecord) (adminId appName now : String) :
    (l.map (fun a =>
        if a.adminId == adminId && a.appName == appName then
          { a with deleted := some now }
        else a)).find? (fun a => a.adminId == adminId && a.appName == appName)
      = (l.find? (fun a => a.adminId == adminId && a.appName == appName)).map
          (fun a => { a with deleted := some now }) := by
  induction l with
  | nil => rfl
  | cons hd tl ih =>
    by_cases h : (hd.adminId == adminId && hd.appName == appName) = true
    · simp only [List.map_cons, if_pos h]
      rw [List.find?_cons_of_pos (p := fun (a : AppRecord) => a.adminId == adminId && a.appName == appName)
            _ (by simpa using h),
          List.find?_cons_of_pos (p := fun (a : AppRecord) => a.adminId == adminId && a.appName == appName)
            _ h]
      rfl
    · simp only [List.map_cons, if_neg h]
      rw [List.find?_cons_of_neg (p := fun (a : AppRecord) => a.adminId == adminId && a.appName == appName)
            _ (by simpa using h),
          List.find?_cons_of_neg (p := fun (a : AppRecord) => a.adminId == adminId && a.appName == appName)
            _ (by simpa using h), ih]

/-- `getApp` after `setDeleted` at the same key. -/
theorem getApp_setDeleted (db : DB) (adminId appName now : String) :
    getApp (setDeleted db adminId appName now) adminId appName
      = (getApp db adminId appName).map (fun a => { a with deleted := some now }) := by
  unfold getApp setDeleted
  exact find?_setDeleted db.apps adminId appName now

/-! ### Claim theorems -/

/-- C4: at every (owner id, name) key already holding a record, a further
create call for that key fails with ConflictError ("App already exists",
status 409) and leaves the store unchanged. -/
theorem createApp_duplicate_conflict (sub : Option Subscription)
    (appName adminId appId now : String) (db : DB) (a : AppRecord)
    (hsub : subInvalid sub = false) (hnm : appName ≠ "") (had : adminId ≠ "")
    (htr : jsTrim appName ≠ "") (hex : getApp db adminId (jsTrim appName) = some a) :
    createAppController sub appName adminId appId now db
      = (⟨409, .text "App already exists"⟩, db) := by
  simp [createAppController, createApp, hsub, hnm, had, htr, hex]

/-- C4 witness: creating "nm1" again for admin "ad1" conflicts and leaves the
one-app store as it was. -/
theorem createApp_duplicate_conflict_witness :
    createAppController (some subActive) "nm1" "ad1" "id2" "t1" dbOne
      = (⟨409, .text "App already exists"⟩, dbOne) :=
  createApp_duplicate_conflict (some subActive) "nm1" "ad1" "id2" "t1" dbOne appActive
    (by decide) (by decide) (by decide) (by decide) (by decide)

/-- C5: a create call whose raw name is non-empty but trims to the empty
string fails with the specific blank-name ValidationError (status 400,
"App name cannot be blank", distinct from the missing-field message) and
performs no store write. -/
theorem createApp_blank_name (sub : Option Subscription)
    (appName adminId appId now : String) (db : DB)
    (hsub : subInvalid sub = false) (hnm : appName ≠ "") (had : adminId ≠ "")
    (htr : jsTrim appName = "") :
    createAppController sub appName adminId appId now db
      = (⟨400, .text "App name cannot be blank"⟩, db) ∧
    ("App name cannot be blank" : String) ≠ "Missing required items" := by
  refine ⟨?_, by decide⟩
  simp [createAppController, createApp, hsub, hnm, had, htr]

/-- C5 witness: a whitespace-only name. -/
theorem createApp_blank_name_witness :
    createAppController (some subActive) " " "ad1" "id2" "t1" dbOne
      = (⟨400, .text "App name cannot be blank"⟩, dbOne) :=
  (createApp_blank_name (some subActive) " " "ad1" "id2" "t1" dbOne
    (by decide) (by decide) (by decide) (by decide)).1

/-- C9: whenever the resolved subscription is missing, cancelling at period
end, or not in status "active", each of the three mutating handlers returns
402 Payment Required and the store is untouched. -/
theorem subscription_gate_402 (sub : Option Subscription)
    (hsub : sub = none ∨
      ∃ s, sub = some s ∧ (s.cancel_at_period_end = true ∨ s.status ≠ "active"))
    (appName appId adminId now : String) (db : DB) :
    createAppController sub appName adminId appId now db
      = (⟨402, .text "Pay subscription fee to create an app."⟩, db) ∧
    deleteApp sub appName adminId now db
      = (⟨402, .text "Pay subscription fee to delete an app."⟩, db) ∧
    permanentDeleteApp sub appName appId adminId db
      = (⟨402, .text "Pay subscription fee to permanently delete an app."⟩, db) := by
  have h : subInvalid sub = true := by
    rcases hsub with h | ⟨s, rfl, hc | hs⟩
    · subst h; rfl
    · simp [subInvalid, hc]
    · simp [subInvalid, hs]
  exact ⟨by simp [createAppController, h], by simp [deleteApp, h],
    by simp [permanentDeleteApp, h]⟩

/-- C9 witness: a request with no subscription at all. -/
theorem subscription_gate_402_witness :
    createAppController none "nm1" "ad1" "id2" "t1" dbOne
      = (⟨402, .text "Pay subscription fee to create an app."⟩, dbOne) ∧
    deleteApp none "nm1" "ad1" "t1" dbOne
      = (⟨402, .text "Pay subscription fee to delete an app."⟩, dbOne) ∧
    permanentDeleteApp none "nm1" "id1" "ad1" dbOne
      = (⟨402, .text "Pay subscription fee to permanently delete an app."⟩, dbOne) :=
  subscription_gate_402 none (Or.inl rfl) "nm1" "id1" "ad1" "t1" dbOne

/-- C7: `getAppByAppId` returns absence on zero index matches and the unique
record on exactly one; with more than one record sharing the app id it raises
the fatal invariant error, logging it at the highest severity, and never
returns a record. -/
theorem getAppByAppId_spec (db : DB) (appId : String) :
    ((db.apps.filter (fun a => a.appId == appId)) = [] →
       getAppByAppId db appId = (.ok none, [])) ∧
    (∀ a, (db.apps.filter (fun b => b.appId == appId)) = [a] →
       getAppByAppId db appId = (.ok (some a), [])) ∧
    (2 ≤ (db.apps.filter (fun a => a.appId == appId)).length →
       ∃ msg, (getAppByAppId db appId).1 = .error msg ∧
         (Severity.fatal, msg) ∈ (getAppByAppId db appId).2) := by
  refine ⟨?_, ?_, ?_⟩
  · intro h; simp [getAppByAppId, h]
  · intro a h; simp [getAppByAppId, h]
  · intro h
    have h0 : ¬((db.apps.filter (fun a => a.appId == appId)).length = 0) := by omega
    have h1 : (db.apps.filter (fun a => a.appId == appId)).length > 1 := by omega
    exact ⟨"Too many apps found with app id " ++ appId,
      by simp [getAppByAppId, h0, h1], by simp [getAppByAppId, h0, h1]⟩

/-- C7 witness: two records sharing app id "dup" yield the fatal error. -/
theorem getAppByAppId_spec_witness :
    ∃ msg, (getAppByAppId dbCorrupt "dup").1 = .error msg ∧
      (Severity.fatal, msg) ∈ (getAppByAppId dbCorrupt "dup").2 :=
  (getAppByAppId_spec dbCorrupt "dup").2.2 (by decide)

/-- C8: `listAppUsers` resolves the owning application first and fails with
404 Not Found when it is absent or soft-deleted; only for an active
application does it list the users referencing its app id. -/
theorem listAppUsers_resolves_app_first (appName adminId : String) (pageSize : Nat)
    (db : DB) :
    (getApp db adminId appName = none →
       listAppUsers appName adminId pageSize db = ⟨404, .text "App not found"⟩) ∧
    (∀ a, getApp db adminId appName = some a → a.deleted.isSome →
       listAppUsers appName adminId pageSize db = ⟨404, .text "App not found"⟩) ∧
    (∀ a, getApp db adminId appName = some a → a.deleted = none →
       listAppUsers appName adminId pageSize db
         = ⟨200, .usersPayload
             (drainPages (db.users.filter (fun u => u.appId == a.appId)) pageSize)
             a.appId⟩) := by
  refine ⟨?_, ?_, ?_⟩
  · intro h; simp [listAppUsers, h]
  · intro a h hdel; simp [listAppUsers, h, hdel]
  · intro a h hdel; simp [listAppUsers, h, hdel]

/-- C8 witness: a soft-deleted application is reported 404. -/
theorem listAppUsers_resolves_app_first_witness :
    listAppUsers "nm1" "ad1" 1 dbPerm = ⟨404, .text "App not found"⟩ :=
  (listAppUsers_resolves_app_first "nm1" "ad1" 1 dbPerm).2.1 appSoftDeleted
    (by decide) (by decide)

/-- C3 (refuted): with two records of the same admin split across two
continuation pages, `listApps` sends the second page nested as a single
element (`apps.push(items)` without a spread), not the flat concatenation of
the pages' items. -/
theorem listApps_nests_continuation_pages :
    listApps "admin1" 1 dbTwoApps
      = ⟨200, .listing [Sum.inl appA, Sum.inr [appB]]⟩ ∧
    ([Sum.inl appA, Sum.inr [appB]] : List (AppRecord ⊕ List AppRecord))
      ≠ [appA, appB].map Sum.inl := by
  exact ⟨by decide, by decide⟩

/-- C6: soft delete succeeds exactly when a record exists at the key and has
no deletion timestamp, setting the timestamp to the current time; on an
absent or already soft-deleted record the conditional update fails with 404 —
in particular a second soft delete on the same key fails with 404. -/
theorem deleteApp_soft_delete_spec (sub : Option Subscription)
    (appName adminId now now2 : String) (db : DB)
    (hsub : subInvalid sub = false) (hnm : appName ≠ "") (had : adminId ≠ "") :
    (∀ a, getApp db adminId appName = some a → a.deleted = none →
       deleteApp sub appName adminId now db
         = (⟨200, .empty⟩, setDeleted db adminId appName now) ∧
       getApp (setDeleted db adminId appName now) adminId appName
         = some { a with deleted := some now } ∧
       deleteApp sub appName adminId now2 (setDeleted db adminId appName now)
         = (⟨404, .text "App not found"⟩, setDeleted db adminId appName now)) ∧
    (getApp db adminId appName = none →
       deleteApp sub appName adminId now db = (⟨404, .text "App not found"⟩, db)) ∧
    (∀ a, getApp db adminId appName = some a → a.deleted.isSome →
       deleteApp sub appName adminId now db = (⟨404, .text "App not found"⟩, db)) := by
  refine ⟨?_, ?_, ?_⟩
  · intro a ha hdel
    have hg : getApp (setDeleted db adminId appName now) adminId appName
        = some { a with deleted := some now } := by
      rw [getApp_setDeleted, ha]; rfl
    refine ⟨by simp [deleteApp, hsub, hnm, had, ha, hdel], hg, ?_⟩
    simp [deleteApp, hsub, hnm, had, hg]
  · intro h; simp [deleteApp, hsub, hnm, had, h]
  · intro a ha hdel
    obtain ⟨t, ht⟩ := Option.isSome_iff_exists.mp hdel
    simp [deleteApp, hsub, hnm, had, ha, ht]

/-- C6 witness: first soft delete of "nm1" succeeds and stamps the record;
the second one on the same key is a 404 and changes nothing. -/
theorem deleteApp_soft_delete_spec_witness :
    deleteApp (some subActive) "nm1" "ad1" "t2" dbOne
      = (⟨200, .empty⟩, setDeleted dbOne "ad1" "nm1" "t2") ∧
    deleteApp (some subActive) "nm1" "ad1" "t3" (setDeleted dbOne "ad1" "nm1" "t2")
      = (⟨404, .text "App not found"⟩, setDeleted dbOne "ad1" "nm1" "t2") :=
  ⟨((deleteApp_soft_delete_spec (some subActive) "nm1" "ad1" "t2" "t3" dbOne
      (by decide) (by decide) (by decide)).1 appActive (by decide) (by decide)).1,
   ((deleteApp_soft_delete_spec (some subActive) "nm1" "ad1" "t2" "t3" dbOne
      (by decide) (by decide) (by decide)).1 appActive (by decide) (by decide)).2.2⟩

/-- C1: with non-empty owner id, name and app id (and the paid gate passed),
permanent delete is all-or-nothing: when the primary record is soft-deleted
with the matching app id and no tombstone exists, one atomic step removes the
record and inserts the tombstone; when either condition fails nothing happens
and the call answers ConflictError 409 "App already permanently deleted". -/
theorem permanentDeleteApp_atomic (sub : Option Subscription)
    (appName appId adminId : String) (db : DB)
    (hsub : subInvalid sub = false)
    (hnm : appName ≠ "") (hid : appId ≠ "") (had : adminId ≠ "") :
    (permDeleteCond db adminId appName appId = true →
       permanentDeleteApp sub appName appId adminId db
         = (⟨200, .empty⟩,
            { db with
              apps := db.apps.filter
                (fun a => !(a.adminId == adminId && a.appName == appName)),
              deletedApps := db.deletedApps ++ [⟨appId, adminId, appName⟩] }) ∧
       getApp (permanentDeleteApp sub appName appId adminId db).2 adminId appName
         = none ∧
       ((permanentDeleteApp sub appName appId adminId db).2.deletedApps.find?
           (fun t => t.appId == appId)) = some ⟨appId, adminId, appName⟩) ∧
    (permDeleteCond db adminId appName appId = false →
       permanentDeleteApp sub appName appId adminId db
         = (⟨409, .text "App already permanently deleted"⟩, db)) := by
  constructor
  · intro hc
    have he : permanentDeleteApp sub appName appId adminId db
        = (⟨200, .empty⟩,
           { db with
             apps := db.apps.filter
               (fun a => !(a.adminId == adminId && a.appName == appName)),
             deletedApps := db.deletedApps ++ [⟨appId, adminId, appName⟩] }) := by
      simp [permanentDeleteApp, hsub, hnm, hid, had, hc]
    refine ⟨he, ?_, ?_⟩
    · rw [he]
      exact find?_filter_not _ db.apps
    · rw [he]
      have h2 : db.deletedApps.find? (fun t => t.appId == appId) = none := by
        have hc2 := hc
        simp only [permDeleteCond, Bool.and_eq_true] at hc2
        exact Option.isNone_iff_eq_none.mp hc2.2
      show ((db.deletedApps ++ [(⟨appId, adminId, appName⟩ : Tombstone)]).find?
        (fun t => t.appId == appId)) = some ⟨appId, adminId, appName⟩
      rw [List.find?_append, h2]
      simp
  · intro hc
    simp [permanentDeleteApp, hsub, hnm, hid, had, hc]

/-- C1 witness: on a soft-deleted record with matching id and no tombstone,
the transaction removes the record and inserts the tombstone in one step. -/
theorem permanentDeleteApp_atomic_witness :
    permanentDeleteApp (some subActive) "nm1" "id1" "ad1" dbPerm
      = (⟨200, .empty⟩,
         { dbPerm with
           apps := dbPerm.apps.filter
             (fun a => !(a.adminId == "ad1" && a.appName == "nm1")),
           deletedApps := dbPerm.deletedApps ++ [⟨"id1", "ad1", "nm1"⟩] }) :=
  ((permanentDeleteApp_atomic (some subActive) "nm1" "id1" "ad1" dbPerm
    (by decide) (by decide) (by decide) (by decide)).1 (by decide)).1

/-! ### Lemmas on the counting loop -/

/-- Capping at the limit once or twice along the way is the same as capping
the final sum. -/
theorem min_absorb_add (L x y : Nat) : min L (min L x + y) = min L (x + y) := by
  omega

/-- The count of a scanned page plus the count of the remainder is the count
of everything from the cursor on. -/
theorem countP_drop_split (rows : List UserRecord) (pos n : Nat) :
    ((rows.drop pos).take n).countP (fun u => matchesFilter u)
        + (rows.drop (pos + n)).countP (fun u => matchesFilter u)
      = (rows.drop pos).countP (fun u => matchesFilter u) := by
  have h1 : rows.drop (pos + n) = (rows.drop pos).drop n := by
    rw [List.drop_drop, Nat.add_comm]
  rw [h1, ← List.countP_append, List.take_append_drop]

/-- With a falsy limit the loop drains the whole remaining partition and adds
every page's filtered count. -/
theorem countLoop_falsy (rows : List UserRecord) (limit : Option Nat) (ps : Nat)
    (hps : 1 ≤ ps) (hl : truthy limit = false) :
    ∀ fuel pos count, pos < rows.length → rows.length - pos ≤ fuel →
      countLoop rows limit ps fuel count (some pos)
        = count + (rows.drop pos).countP (fun u => matchesFilter u) := by
  intro fuel
  induction fuel with
  | zero => intro pos count hpos hfuel; omega
  | succ f ih =>
    intro pos count hpos hfuel
    have hkeep : keepGoing limit count = true := by simp [keepGoing, hl]
    have hlp : limitParam limit = none := by simp [limitParam, hl]
    have hacc : ∀ c d, accumulate limit c d = c + d := by
      intro c d; simp [accumulate, hl]
    simp only [countLoop, hkeep, if_true, hlp, queryCountPage, capOf, hacc]
    have hn1 : 1 ≤ min ps (rows.length - pos) := by
      refine Nat.le_min.mpr ⟨hps, ?_⟩; omega
    by_cases hend : pos + min ps (rows.length - pos) < rows.length
    · rw [if_pos hend]
      rw [ih (pos + min ps (rows.length - pos)) _ hend (by omega)]
      rw [Nat.add_assoc, countP_drop_split]
    · rw [if_neg hend]
      simp only [countLoop]
      have hlen : (rows.drop pos).length ≤ min ps (rows.length - pos) := by
        rw [List.length_drop]; omega
      rw [List.take_of_length_le hlen]

/-- With a positive limit `L` the loop keeps following continuation keys
until the running count (always capped at `L`) meets `L` or the partition is
exhausted, ending at `min L` of the total remaining filtered count. -/
theorem countLoop_limit (rows : List UserRecord) (L ps : Nat)
    (hL : 1 ≤ L) (hps : 1 ≤ ps) :
    ∀ fuel pos count, pos < rows.length → rows.length - pos ≤ fuel → count ≤ L →
      countLoop rows (some L) ps fuel count (some pos)
        = min L (count + (rows.drop pos).countP (fun u => matchesFilter u)) := by
  intro fuel
  induction fuel with
  | zero => intro pos count hpos hfuel _; omega
  | succ f ih =>
    intro pos count hpos hfuel hcount
    have htr : truthy (some L) = true := by simp [truthy]; omega
    have hlp : limitParam (some L) = some L := by simp [limitParam, htr]
    by_cases hlt : count < L
    · have hkeep : keepGoing (some L) count = true := by
        simp [keepGoing, htr, hlt]
      have hacc : ∀ c d, accumulate (some L) c d = min L (c + d) := by
        intro c d; simp [accumulate, htr]
      simp only [countLoop, hkeep, if_true, hlp, queryCountPage, capOf, hacc]
      have hn1 : 1 ≤ min (min L ps) (rows.length - pos) := by
        have : 1 ≤ min L ps := Nat.le_min.mpr ⟨hL, hps⟩
        refine Nat.le_min.mpr ⟨this, ?_⟩; omega
      by_cases hend : pos + min (min L ps) (rows.length - pos) < rows.length
      · rw [if_pos hend]
        rw [ih (pos + min (min L ps) (rows.length - pos)) _ hend (by omega)
              (Nat.min_le_left _ _)]
        rw [min_absorb_add, Nat.add_assoc, countP_drop_split]
      · rw [if_neg hend]
        simp only [countLoop]
        have hlen : (rows.drop pos).length ≤ min (min L ps) (rows.length - pos) := by
          rw [List.length_drop]; omega
        rw [List.take_of_length_le hlen]
    · have hkeep : keepGoing (some L) count = false := by
        simp [keepGoing, htr]; omega
      simp only [countLoop, hkeep, if_false, Bool.false_eq_true]
      omega

/-- With a falsy limit `countFrom` is the exact filtered count of the whole
partition. -/
theorem countFrom_falsy (rows : List UserRecord) (limit : Option Nat) (ps : Nat)
    (hps : 1 ≤ ps) (hl : truthy limit = false) :
    countFrom rows limit ps = rows.countP (fun u => matchesFilter u) := by
  have hlp : limitParam limit = none := by simp [limitParam, hl]
  unfold countFrom
  rw [hlp]
  rcases Nat.eq_zero_or_pos rows.length with hz | hpos
  · have he : rows = [] := List.length_eq_zero.mp hz
    subst he
    simp [queryCountPage, capOf, countLoop]
  · simp only [queryCountPage, capOf, Nat.sub_zero, Nat.zero_add, List.drop_zero]
    by_cases hend : min ps rows.length < rows.length
    · rw [if_pos hend]
      rw [countLoop_falsy rows limit ps hps hl rows.length _ _ hend (by omega)]
      have : rows.drop 0 = rows := List.drop_zero rows
      calc ((rows.take (min ps rows.length)).countP (fun u => matchesFilter u))
            + ((rows.drop (min ps rows.length)).countP (fun u => matchesFilter u))
          = ((rows.drop 0).take (min ps rows.length)).countP (fun u => matchesFilter u)
            + (rows.drop (0 + min ps rows.length)).countP (fun u => matchesFilter u) := by
            rw [List.drop_zero, Nat.zero_add]
        _ = (rows.drop 0).countP (fun u => matchesFilter u) := countP_drop_split rows 0 _
        _ = rows.countP (fun u => matchesFilter u) := by rw [List.drop_zero]
    · rw [if_neg hend]
      simp only [countLoop]
      have hlen : rows.length ≤ min ps rows.length := by omega
      rw [List.take_of_length_le hlen]

/-- With a positive limit `L`, `countFrom` is the total filtered count capped
at `L`. -/
theorem countFrom_limit (rows : List UserRecord) (L ps : Nat)
    (hL : 1 ≤ L) (hps : 1 ≤ ps) :
    countFrom rows (some L) ps = min L (rows.countP (fun u => matchesFilter u)) := by
  have htr : truthy (some L) = true := by simp [truthy]; omega
  have hlp : limitParam (some L) = some L := by simp [limitParam, htr]
  unfold countFrom
  rw [hlp]
  rcases Nat.eq_zero_or_pos rows.length with hz | hpos
  · have he : rows = [] := List.length_eq_zero.mp hz
    subst he
    simp [queryCountPage, capOf, countLoop]
  · simp only [queryCountPage, capOf, Nat.sub_zero, Nat.zero_add, List.drop_zero]
    have hcle : ∀ n : Nat, (rows.take n).countP (fun u => matchesFilter u) ≤ n := by
      intro n
      calc (rows.take n).countP (fun u => matchesFilter u)
          ≤ (rows.take n).length := List.countP_le_length _
        _ ≤ n := List.length_take_le n rows
    by_cases hend : min (min L ps) rows.length < rows.length
    · rw [if_pos hend]
      rw [countLoop_limit rows L ps hL hps rows.length _ _ hend (by omega)
            (le_trans (hcle _) (le_trans (Nat.min_le_left _ _) (Nat.min_le_left _ _)))]
      calc min L ((rows.take (min (min L ps) rows.length)).countP (fun u => matchesFilter u)
              + (rows.drop (min (min L ps) rows.length)).countP (fun u => matchesFilter u))
          = min L (((rows.drop 0).take (min (min L ps) rows.length)).countP
                (fun u => matchesFilter u)
              + (rows.drop (0 + min (min L ps) rows.length)).countP
                (fun u => matchesFilter u)) := by
            rw [List.drop_zero, Nat.zero_add]
        _ = min L ((rows.drop 0).countP (fun u => matchesFilter u)) := by
            rw [countP_drop_split rows 0 _]
        _ = min L (rows.countP (fun u => matchesFilter u)) := by rw [List.drop_zero]
    · rw [if_neg hend]
      simp only [countLoop]
      have hlen : rows.length ≤ min (min L ps) rows.length := by omega
      rw [List.take_of_length_le hlen]
      have h1 : rows.countP (fun u => matchesFilter u) ≤ L := by
        have h2 := List.countP_le_length (l := rows) (p := fun u => matchesFilter u)
        omega
      omega

/-- C2: for every positive limit `L` (and raw page cap ≥ 1) the count loop
keeps following continuation keys, caps the running count at `L`, and returns
exactly `L` whenever at least `L` filtered (non-deleted, provisioned) users of
the app exist across all pages — in general `min L total`; with the limit
omitted it returns the exact total filtered count. -/
theorem countNonDeletedAppUsers_limit_spec (db : DB) (applicationId : String)
    (L ps : Nat) (hL : 1 ≤ L) (hps : 1 ≤ ps) :
    (L ≤ (db.users.filter (fun u => u.appId == applicationId)).countP
          (fun u => matchesFilter u) →
       countNonDeletedAppUsers db applicationId (some L) ps = L) ∧
    countNonDeletedAppUsers db applicationId (some L) ps
      = min L ((db.users.filter (fun u => u.appId == applicationId)).countP
          (fun u => matchesFilter u)) ∧
    countNonDeletedAppUsers db applicationId none ps
      = (db.users.filter (fun u => u.appId == applicationId)).countP
          (fun u => matchesFilter u) := by
  refine ⟨?_, ?_, ?_⟩
  · intro h
    unfold countNonDeletedAppUsers
    rw [countFrom_limit _ L ps hL hps]
    omega
  · exact countFrom_limit _ L ps hL hps
  · exact countFrom_falsy _ none ps hps rfl

/-- C2 witness: ten users of one app split into raw pages of two, each page
holding a single filtered match (below the limit 5), still count to exactly 5. -/
theorem countNonDeletedAppUsers_limit_spec_witness :
    countNonDeletedAppUsers dbUsersPages "appX" (some 5) 2 = 5 :=
  (countNonDeletedAppUsers_limit_spec dbUsersPages "appX" 5 2
    (by decide) (by decide)).1 (by decide)

/-- C10: a limit of 0 is falsy, so no per-query bound is set and the loop
drains the whole partition: the call behaves exactly like an omitted limit
and returns the total filtered count, not 0. -/
theorem countNonDeletedAppUsers_zero_limit (db : DB) (applicationId : String)
    (ps : Nat) (hps : 1 ≤ ps) :
    countNonDeletedAppUsers db applicationId (some 0) ps
      = countNonDeletedAppUsers db applicationId none ps ∧
    countNonDeletedAppUsers db applicationId (some 0) ps
      = (db.users.filter (fun u => u.appId == applicationId)).countP
          (fun u => matchesFilter u) := by
  have h0 := countFrom_falsy (db.users.filter (fun u => u.appId == applicationId))
    (some 0) ps hps rfl
  have h1 := countFrom_falsy (db.users.filter (fun u => u.appId == applicationId))
    none ps hps rfl
  exact ⟨h0.trans h1.symm, h0⟩

/-- C10 witness: with limit 0 the ten-user store counts all five matches. -/
theorem countNonDeletedAppUsers_zero_limit_witness :
    countNonDeletedAppUsers dbUsersPages "appX" (some 0) 2
      = countNonDeletedAppUsers dbUsersPages "appX" none 2 ∧
    countNonDeletedAppUsers dbUsersPages "appX" (some 0) 2
      = (dbUsersPages.users.filter (fun u => u.appId == "appX")).countP
          (fun u => matchesFilter u) :=
  countNonDeletedAppUsers_zero_limit dbUsersPages "appX" 2 (by decide)
